import Mathlib

/-!
Shallow embedding of the rawmdns DNS wire-format codec
(src/decoder.go, src/resourcerecord.go, and the message/header/question
code in src/unnamed/part_003).

Bytes are modelled as `Nat` with explicit `% 256` where Go's `byte`/`uint8`
casts truncate, and `% 65536` for `uint16` casts.  Streams are `List Nat`,
read with the semantics of `bytes.Reader` (a single partial `Read` fills
what is available without error; any `Read` on an exhausted reader reports
`io.EOF`; `binary.Read` uses `io.ReadFull`, which reports `io.EOF` when
nothing was read and `io.ErrUnexpectedEOF` on a short read).  Places where
the Go code would crash (out-of-range slicing, unbounded pointer-chasing
recursion) are modelled by the distinguished outcome `GErr.panicked`,
which every error-wrapping site passes through unchanged.  Loops that
consume a stream are written with an explicit structural counter that is
initialised to more iterations than the stream has bytes, so that every
definition evaluates by kernel reduction.
-/

inductive GErr where
  | eof
  | unexpectedEof
  | msg
  | panicked
deriving DecidableEq, Repr

/-- `fmt.Errorf("...: %s", err)` builds a fresh formatted error from any
error value; a Go panic is not an error value and propagates past all
such wrapping sites unchanged. -/
def wrapErr : GErr → GErr
  | GErr.panicked => GErr.panicked
  | _ => GErr.msg

/-- A Go buffer of length `n` filled by a (possibly short) read of `l`:
the copied bytes followed by the zero bytes `make` initialised. -/
def padTo (n : Nat) (l : List Nat) : List Nat :=
  l ++ List.replicate (n - l.length) 0

/-- `binary.BigEndian.Uint16` of two bytes. -/
def be16 (hi lo : Nat) : Nat :=
  (hi % 256) * 256 + lo % 256

/-- decoder.go `labelRecord`: one entry of the decoder's shared label
context.  `offset` is the uint16 message offset, `length` the raw length
byte, `content` the literal bytes (empty for pointers and terminals). -/
structure LabelRecord where
  offset : Nat
  length : Nat
  content : List Nat
  isPtr : Bool
  targetOffset : Nat
deriving DecidableEq, Repr

/-- decoder.go `rawLabel`: one literal label of a name. -/
structure RawLabel where
  length : Nat
  content : List Nat
deriving DecidableEq, Repr

/-- decoder.go `rawLabel.toBytes`: the length byte then the content. -/
def RawLabel.toBytes (rl : RawLabel) : List Nat :=
  rl.length % 256 :: rl.content

/-- decoder.go `rawLabels.toBytes`: every label's bytes, then the
terminating zero-length label. -/
def rawLabelsToBytes (rlList : List RawLabel) : List Nat :=
  (rlList.map RawLabel.toBytes).flatten ++ [0]

/-- decoder.go `rawLabels.toDomain`: `strings.Join` of the contents with
`.` (byte 46) between every pair. -/
def rawLabelsToDomain (rlList : List RawLabel) : List Nat :=
  match rlList with
  | [] => []
  | rl :: rest => rl.content ++ (rest.map (fun l => 46 :: l.content)).flatten

/-- `strings.Split(d, ".")` on a byte string: splits on byte 46; the empty
string yields one empty segment. -/
def splitOnDot : List Nat → List (List Nat)
  | [] => [[]]
  | b :: rest =>
    if b = 46 then
      [] :: splitOnDot rest
    else
      match splitOnDot rest with
      | [] => [[b]]
      | s :: ss => (b :: s) :: ss

/-- decoder.go `domain.toRawLabels`: each dot-separated segment becomes a
label whose length byte is `uint8(len(s))` — truncated mod 256, with no
range check. -/
def domainToRawLabels (d : List Nat) : List RawLabel :=
  (splitOnDot d).map (fun s => ⟨s.length % 256, s⟩)

/-- One step of decoder.go `rawLabelsFromOffset`'s scan over the label
context: skip records before the target offset; at the first record at or
past it, follow a pointer via `recurse`, stop at a zero-length record, or
collect the literal label and keep scanning. -/
def scanStep (recurse : Nat → Option (List RawLabel)) (off : Nat) :
    List LabelRecord → Option (List RawLabel)
  | [] => some []
  | lr :: rest =>
    if lr.offset < off then
      scanStep recurse off rest
    else if lr.isPtr then
      recurse lr.targetOffset
    else if lr.length = 0 then
      some []
    else
      (scanStep recurse off rest).map (fun ls => (⟨lr.length, lr.content⟩ : RawLabel) :: ls)

/-- decoder.go `rawLabelsFromOffset`, with `fuel` bounding the nested
pointer recursion depth (the Go recursion is unbounded and a pointer
cycle overflows the stack; `none` stands for that crash). -/
def rawLabelsFromOffset : Nat → List LabelRecord → Nat → Option (List RawLabel)
  | 0, all, off => scanStep (fun _ => none) off all
  | fuel + 1, all, off => scanStep (fun t => rawLabelsFromOffset fuel all t) off all

/-- The loop of decoder.go `_nextRawLabelsFromReaderWithBaseOffset`.
`gas` is a structural bound on loop iterations (each iteration consumes at
least the length byte, so `stream.length + 1` always suffices; the `gas = 0`
branch is unreachable from `nextRawLabelsFrom`).  Returns the collected
labels, the extended label context, the unconsumed stream and the final
cursor (total bytes consumed). -/
def nextRawLabelsGo (fuel base : Nat) :
    Nat → List LabelRecord → List Nat → Nat →
    Except GErr (List RawLabel × List LabelRecord × List Nat × Nat)
  | 0, _, _, _ => .error GErr.msg
  | _ + 1, _, [], _ => .error GErr.msg
  | gas + 1, records, b0 :: rest, cursor =>
    if b0 = 0 then
      -- zero length byte: record the terminal label and stop
      .ok ([], records ++ [⟨(base + cursor) % 65536, 0, [], false, 0⟩], rest, cursor + 1)
    else if b0 >>> 6 = 3 then
      -- compression pointer: consume the second byte, resolve the target
      match rest with
      | [] => .error GErr.msg
      | b1 :: rest2 =>
        match rawLabelsFromOffset fuel records ((((b0 &&& 63) <<< 8) + b1) % 65536) with
        | none => .error GErr.panicked
        | some ls =>
          .ok (ls,
               records ++ [⟨(base + cursor) % 65536, 0, [], true,
                            (((b0 &&& 63) <<< 8) + b1) % 65536⟩],
               rest2, cursor + 2)
    else if b0 &&& 128 = 128 ∨ b0 &&& 64 = 64 then
      -- first two bits may be 00 or 11, but not 01 or 10
      .error GErr.msg
    else
      -- literal label: read b0 content bytes (a short read pads with zeros)
      match rest with
      | [] => .error GErr.msg
      | r1 :: rs =>
        let content := padTo b0 ((r1 :: rs).take b0)
        match nextRawLabelsGo fuel base gas
            (records ++ [⟨(base + cursor) % 65536, b0, content, false, 0⟩])
            ((r1 :: rs).drop b0)
            (cursor + 1 + min b0 (r1 :: rs).length) with
        | .error e => .error e
        | .ok (ls, recs, rem, cur) =>
          .ok ((⟨b0, content⟩ : RawLabel) :: ls, recs, rem, cur)

/-- decoder.go `_nextRawLabelsFromReaderWithBaseOffset`: run the label
loop from cursor 0 with enough gas for the whole stream. -/
def nextRawLabelsFrom (fuel : Nat) (records : List LabelRecord) (base : Nat)
    (stream : List Nat) :
    Except GErr (List RawLabel × List LabelRecord × List Nat × Nat) :=
  nextRawLabelsGo fuel base (stream.length + 1) records stream 0

/-- part_003 `rawDNSHeader`: the fixed 12-byte wire header
(`Flag [2]byte` split into its two bytes). -/
structure RawDNSHeader where
  id : Nat
  flag0 : Nat
  flag1 : Nat
  qdCount : Nat
  anCount : Nat
  nsCount : Nat
  arCount : Nat
deriving DecidableEq, Repr

/-- part_003 `DNSHeader` (field order as in the source; `Reserved`,
`AuthenticatedData` and `CheckingDisabled` are declared but touched by
neither `toRaw` nor `toDNSHeader`). -/
structure DNSHeader where
  ID : Nat
  IsResponse : Bool
  OpCode : Nat
  Authoritative : Bool
  Truncated : Bool
  RecursionDesired : Bool
  RecursionAvailable : Bool
  Reserved : Bool
  AuthenticatedData : Bool
  CheckingDisabled : Bool
  ResponseCode : Nat
  NumQuestions : Nat
  NumAnswers : Nat
  NumNameServers : Nat
  NumAddlRecords : Nat
deriving DecidableEq, Repr

/-- part_003 `rawDNSHeader.toDNSHeader`.  `(Flag[0] >> 3) &^ 0x10` on a
byte clears bit 4 of the shifted value, i.e. ANDs with 0xEF. -/
def RawDNSHeader.toDNSHeader (r : RawDNSHeader) : DNSHeader where
  ID := r.id
  IsResponse := decide (r.flag0 >>> 7 = 1)
  OpCode := (r.flag0 >>> 3) &&& 0xEF
  Authoritative := decide ((r.flag0 &&& 0x4) >>> 2 = 1)
  Truncated := decide ((r.flag0 &&& 0x2) >>> 1 = 1)
  RecursionDesired := decide (r.flag0 &&& 0x1 = 1)
  RecursionAvailable := decide (r.flag1 >>> 7 = 1)
  Reserved := false
  AuthenticatedData := false
  CheckingDisabled := false
  ResponseCode := r.flag1 &&& 0xF
  NumQuestions := r.qdCount
  NumAnswers := r.anCount
  NumNameServers := r.nsCount
  NumAddlRecords := r.arCount

/-- part_003 `DNSHeader.toRaw`: the successive `|=` writes into the two
flag bytes, with `uint8`/`uint16` casts made explicit as `% 256`/`% 65536`. -/
def DNSHeader.toRaw (h : DNSHeader) : RawDNSHeader where
  id := h.ID % 65536
  flag0 :=
    (if h.IsResponse then 0x80 else 0) |||
    ((h.OpCode % 256) <<< 3) % 256 |||
    (if h.Authoritative then 0x4 else 0) |||
    (if h.Truncated then 0x2 else 0) |||
    (if h.RecursionDesired then 0x1 else 0)
  flag1 :=
    (if h.RecursionAvailable then 0x80 else 0) |||
    (h.ResponseCode % 256) &&& 0xF
  qdCount := h.NumQuestions % 65536
  anCount := h.NumAnswers % 65536
  nsCount := h.NumNameServers % 65536
  arCount := h.NumAddlRecords % 65536

/-- `binary.Write` of one big-endian uint16. -/
def uint16be (v : Nat) : List Nat :=
  [(v / 256) % 256, v % 256]

/-- part_003 `rawDNSHeader.toBytes`: `binary.Write` of the 12-byte
big-endian layout (writing to a `bytes.Buffer` cannot fail). -/
def RawDNSHeader.toBytes (r : RawDNSHeader) : List Nat :=
  uint16be r.id ++ [r.flag0 % 256, r.flag1 % 256] ++
  uint16be r.qdCount ++ uint16be r.anCount ++ uint16be r.nsCount ++ uint16be r.arCount

/-- part_003 `DNSHeader.toBytes`. -/
def DNSHeader.toBytes (h : DNSHeader) : List Nat :=
  h.toRaw.toBytes

/-- decoder.go `nextRawDNSHeader`'s `binary.Read` of the 12-byte header
buffer (each byte is a uint8). -/
def rawHeaderFromBytes (b : List Nat) : RawDNSHeader where
  id := be16 (b.getD 0 0) (b.getD 1 0)
  flag0 := b.getD 2 0 % 256
  flag1 := b.getD 3 0 % 256
  qdCount := be16 (b.getD 4 0) (b.getD 5 0)
  anCount := be16 (b.getD 6 0) (b.getD 7 0)
  nsCount := be16 (b.getD 8 0) (b.getD 9 0)
  arCount := be16 (b.getD 10 0) (b.getD 11 0)

/-- part_003 `rawDNSQuestion` (`static` holds Type and Class, both uint16;
`Type`/`Class` are renamed `typ`/`cls` because Lean reserves those words). -/
structure RawDNSQuestion where
  domainLabels : List RawLabel
  typ : Nat
  cls : Nat
deriving DecidableEq, Repr

/-- part_003 `DNSQuestion`. -/
structure DNSQuestion where
  Domain : List Nat
  typ : Nat
  cls : Nat
  AcceptUnicastResponse : Bool
deriving DecidableEq, Repr

/-- part_003 `rawDNSQuestion.toQuestion`'s domain loop: prepend a dot
before every label content except when the accumulated name is still
empty. -/
def questionDomain (ls : List RawLabel) : List Nat :=
  ls.foldl (fun d l => (if d.isEmpty then d else d ++ [46]) ++ l.content) []

/-- part_003 `rawDNSQuestion.toQuestion`. -/
def RawDNSQuestion.toQuestion (rq : RawDNSQuestion) : DNSQuestion where
  Domain := questionDomain rq.domainLabels
  typ := rq.typ
  cls := rq.cls &&& 0x7FFF
  AcceptUnicastResponse := decide (rq.cls &&& 0x8000 = 0x8000)

/-- part_003 `DNSQuestion.toRaw`: the inline split loop is the same
`strings.Split` + `uint8(len(s))` computation as `domain.toRawLabels`. -/
def DNSQuestion.toRaw (q : DNSQuestion) : RawDNSQuestion where
  domainLabels := domainToRawLabels q.Domain
  typ := q.typ
  cls := if q.AcceptUnicastResponse then (q.cls ||| 0x8000) % 65536 else q.cls % 65536

/-- part_003 `rawDNSQuestion.toBytes`: each label then the terminus label,
then the 4-byte big-endian (type, class) block (buffer writes cannot
fail). -/
def RawDNSQuestion.toBytes (rq : RawDNSQuestion) : List Nat :=
  ((rq.domainLabels ++ [(⟨0, []⟩ : RawLabel)]).map RawLabel.toBytes).flatten ++
  uint16be rq.typ ++ uint16be rq.cls

/-- part_003 `DNSQuestion.toBytes`. -/
def DNSQuestion.toBytes (q : DNSQuestion) : List Nat :=
  q.toRaw.toBytes

/-- resourcerecord.go `rawResourceRecord` together with its `static`
part (`Type`/`Class` renamed `typ`/`cls`). -/
structure RawResourceRecord where
  domainLabels : List RawLabel
  typ : Nat
  cls : Nat
  ttl : Nat
  rdataLength : Nat
  rDataOffsetInMsg : Nat
  rData : List Nat
deriving DecidableEq, Repr

/-- resourcerecord.go `ResourceRecordCommon`. -/
structure ResourceRecordCommon where
  Domain : List Nat
  typ : Nat
  cls : Nat
  CacheFlush : Bool
  TTL : Nat
deriving DecidableEq, Repr

/-- resourcerecord.go `commonFromRawRR`. -/
def commonFromRawRR (rdrr : RawResourceRecord) : ResourceRecordCommon where
  Domain := rawLabelsToDomain rdrr.domainLabels
  typ := rdrr.typ
  cls := rdrr.cls &&& 0x7FFF
  CacheFlush := decide (rdrr.cls &&& 0x8000 = 0x8000)
  TTL := rdrr.ttl

/-- resourcerecord.go `newRawResourceRecordFromCommon`: the common part of
an encoded record (RDATA fields filled in later by each variant). -/
def newRawResourceRecordFromCommon (c : ResourceRecordCommon) : RawResourceRecord where
  domainLabels := domainToRawLabels c.Domain
  typ := c.typ
  cls := if c.CacheFlush then (c.cls ||| 0x8000) % 65536 else c.cls % 65536
  ttl := c.TTL
  rdataLength := 0
  rDataOffsetInMsg := 0
  rData := []

/-- The record variants of the `DNSResourceRecord` interface
(decoder.go / resourcerecord.go), as a closed sum. -/
inductive DNSResourceRecord where
  | a (common : ResourceRecordCommon) (addr : List Nat)
  | aaaa (common : ResourceRecordCommon) (addr : List Nat)
  | srv (common : ResourceRecordCommon) (priority weight port : Nat) (target : List Nat)
  | ptrRec (common : ResourceRecordCommon) (ptrDName : List Nat)
  | txt (common : ResourceRecordCommon) (texts : List (List Nat))
  | nsec (common : ResourceRecordCommon) (nextDomainName : List Nat) (nextDomainTypes : List Nat)
  | opt (common : ResourceRecordCommon) (options : List (Nat × List Nat))
deriving DecidableEq, Repr

/-- The record-type codes used by the decoder's dispatch
(resourcerecord.go constants). -/
def TypeA : Nat := 1
def TypePTR : Nat := 12
def TypeTXT : Nat := 16
def TypeAAAA : Nat := 28
def TypeSRV : Nat := 33
def TypeOPT : Nat := 41
def TypeNSEC : Nat := 47

/-- decoder.go `newTXTRecordFromRawRR`'s loop over the RDATA reader: read
a length byte, then that many bytes (a short read pads with zeros, reading
from an exhausted reader breaks the loop).  `gas` structurally bounds the
iterations. -/
def txtLoopGo : Nat → List Nat → List (List Nat)
  | 0, _ => []
  | _ + 1, [] => []
  | gas + 1, len :: rest =>
    if rest.isEmpty then []
    else padTo len (rest.take len) :: txtLoopGo gas (rest.drop len)

def txtLoop (l : List Nat) : List (List Nat) :=
  txtLoopGo (l.length + 1) l

/-- decoder.go `newNSECRecordFromRawRR`'s innermost bit loop: the set bits
of one bitmap octet, most significant bit first
(`(octet<<bitNum)&0x80 == 0x80`). -/
def octetTypes (group octetNum b : Nat) : List Nat :=
  (List.range 8).filterMap (fun bitNum =>
    if ((b % 256) <<< bitNum) &&& 0x80 = 0x80 then
      some (group * 256 + octetNum * 8 + bitNum)
    else none)

def groupBitsAux (group : Nat) : Nat → List Nat → List Nat
  | _, [] => []
  | octetNum, b :: rest => octetTypes group octetNum b ++ groupBitsAux group (octetNum + 1) rest

/-- decoder.go `newNSECRecordFromRawRR`'s bitmap loop: read a group
number, an octet count and that many octets; running out of octets
mid-group keeps the bits read so far and stops everything (`StopLoop`). -/
def nsecBitmapGo : Nat → List Nat → List Nat
  | 0, _ => []
  | _ + 1, [] => []
  | _ + 1, [_] => []
  | gas + 1, group :: numOctets :: rest =>
    let bits := groupBitsAux group 0 (rest.take numOctets)
    if rest.length < numOctets then bits
    else bits ++ nsecBitmapGo gas (rest.drop numOctets)

def nsecBitmapLoop (l : List Nat) : List Nat :=
  nsecBitmapGo (l.length + 1) l

/-- `sort.Sort(recordTypes(...))`: ascending numeric order (comparison by
`<`; duplicates are indistinguishable, so insertion sort realises it). -/
def insertSorted (x : Nat) : List Nat → List Nat
  | [] => [x]
  | y :: ys => if x ≤ y then x :: y :: ys else y :: insertSorted x ys

def sortNatList (l : List Nat) : List Nat :=
  l.foldr insertSorted []

/-- `o.Options[code] = buf`: Go map assignment (replace or add). -/
def assocSet : List (Nat × List Nat) → Nat → List Nat → List (Nat × List Nat)
  | [], k, v => [(k, v)]
  | (k', v') :: rest, k, v =>
    if k' = k then (k, v) :: rest else (k', v') :: assocSet rest k v

/-- decoder.go `newOPTRecordFromRawRR`'s loop: read a 2-byte code, a
2-byte length and that many value bytes (each a single `Read`: short
reads pad with zeros, a read on the exhausted reader breaks). -/
def optLoopGo : Nat → List Nat → List (Nat × List Nat) → List (Nat × List Nat)
  | 0, _, acc => acc
  | _ + 1, [], acc => acc
  | gas + 1, s@(_ :: _), acc =>
    let code := be16 (s.getD 0 0) (s.getD 1 0)
    let s1 := s.drop 2
    if s1.isEmpty then acc
    else
      let optLen := be16 (s1.getD 0 0) (s1.getD 1 0)
      let s2 := s1.drop 2
      if s2.isEmpty then acc
      else optLoopGo gas (s2.drop optLen) (assocSet acc code (padTo optLen (s2.take optLen)))

def optLoop (l : List Nat) : List (Nat × List Nat) :=
  optLoopGo (l.length + 1) l []

/-- decoder.go `Decoder` + `readCounter`: the unread bytes of the main
stream, the running read offset, and the shared label context. -/
structure DecSt where
  stream : List Nat
  offset : Nat
  records : List LabelRecord
deriving DecidableEq, Repr

/-- `binary.Read`'s `io.ReadFull` of `k` bytes from the main stream:
`io.EOF` when nothing is available, `io.ErrUnexpectedEOF` on a short
read. -/
def readFull (k : Nat) (st : DecSt) : Except GErr (List Nat × DecSt) :=
  if k ≤ st.stream.length then
    .ok (st.stream.take k, ⟨st.stream.drop k, st.offset + k, st.records⟩)
  else if st.stream.isEmpty then .error GErr.eof
  else .error GErr.unexpectedEof

/-- A single `Read` into a `make([]byte, n)` buffer from the main stream:
`io.EOF` only when the stream is exhausted; otherwise it fills what is
available and leaves the rest of the buffer zero. -/
def readPartial (n : Nat) (st : DecSt) : Except GErr (List Nat × DecSt) :=
  if st.stream.isEmpty then .error GErr.eof
  else
    .ok (padTo n (st.stream.take n),
         ⟨st.stream.drop n, st.offset + min n st.stream.length, st.records⟩)

/-- decoder.go `Decoder.nextRawLabels`: run the label loop on the main
stream with the current offset as base, keeping the label context and the
read offset in step. -/
def nextRawLabels (fuel : Nat) (st : DecSt) :
    Except GErr (List RawLabel × DecSt) :=
  match nextRawLabelsFrom fuel st.records st.offset st.stream with
  | .error e => .error e
  | .ok (ls, recs, rem, cur) => .ok (ls, ⟨rem, st.offset + cur, recs⟩)

/-- decoder.go `Decoder.nextRawQuestion`: labels, then the 4-byte static
(type, class) block. -/
def nextRawQuestion (fuel : Nat) (st : DecSt) :
    Except GErr (RawDNSQuestion × DecSt) :=
  match nextRawLabels fuel st with
  | .error e => .error (wrapErr e)
  | .ok (ls, st1) =>
    match readFull 4 st1 with
    | .error e => .error (wrapErr e)
    | .ok (b, st2) =>
      .ok (⟨ls, be16 (b.getD 0 0) (b.getD 1 0), be16 (b.getD 2 0) (b.getD 3 0)⟩, st2)

/-- decoder.go `Decoder.nextRawDNSResourceRecord`: labels, the 10-byte
static block, then one `Read` of `RDataLength` bytes; the RDATA offset in
the whole message is the read offset right after the static block. -/
def nextRawDNSResourceRecord (fuel : Nat) (st : DecSt) :
    Except GErr (RawResourceRecord × DecSt) :=
  match nextRawLabels fuel st with
  | .error e => .error (wrapErr e)
  | .ok (ls, st1) =>
    match readFull 10 st1 with
    | .error e => .error (wrapErr e)
    | .ok (b, st2) =>
      let rdataLength := be16 (b.getD 8 0) (b.getD 9 0)
      match readPartial rdataLength st2 with
      | .error e => .error (wrapErr e)
      | .ok (data, st3) =>
        .ok ({ domainLabels := ls,
               typ := be16 (b.getD 0 0) (b.getD 1 0),
               cls := be16 (b.getD 2 0) (b.getD 3 0),
               ttl := ((be16 (b.getD 4 0) (b.getD 5 0)) <<< 16) +
                      be16 (b.getD 6 0) (b.getD 7 0),
               rdataLength := rdataLength,
               rDataOffsetInMsg := st2.offset,
               rData := data }, st3)

/-- decoder.go `newARecordFromRawRR`: `rdrr.rData[0:4]` panics when the
RDATA is shorter than 4 bytes. -/
def newARecordFromRawRR (rdrr : RawResourceRecord) : Except GErr DNSResourceRecord :=
  if 4 ≤ rdrr.rData.length then
    .ok (.a (commonFromRawRR rdrr) (rdrr.rData.take 4))
  else .error GErr.panicked

/-- decoder.go `newAAAARecordFromRawRR`: `rdrr.rData[0:16]` panics when
the RDATA is shorter than 16 bytes. -/
def newAAAARecordFromRawRR (rdrr : RawResourceRecord) : Except GErr DNSResourceRecord :=
  if 16 ≤ rdrr.rData.length then
    .ok (.aaaa (commonFromRawRR rdrr) (rdrr.rData.take 16))
  else .error GErr.panicked

/-- decoder.go `newSRVRecordFromRawRR`: the three u16 slices
(`rData[0:2]`, `[2:4]`, `[4:6]`) panic when the RDATA is shorter than 6
bytes; the target name is then decoded from `rData[6:]` with base offset
`rDataOffsetInMsg + 6`. -/
def newSRVRecordFromRawRR (fuel : Nat) (records : List LabelRecord)
    (rdrr : RawResourceRecord) : Except GErr (DNSResourceRecord × List LabelRecord) :=
  if rdrr.rData.length < 6 then .error GErr.panicked
  else
    match nextRawLabelsFrom fuel records (rdrr.rDataOffsetInMsg + 6) (rdrr.rData.drop 6) with
    | .error e => .error (wrapErr e)
    | .ok (ls, recs, _, _) =>
      .ok (.srv (commonFromRawRR rdrr)
             (be16 (rdrr.rData.getD 0 0) (rdrr.rData.getD 1 0))
             (be16 (rdrr.rData.getD 2 0) (rdrr.rData.getD 3 0))
             (be16 (rdrr.rData.getD 4 0) (rdrr.rData.getD 5 0))
             (rawLabelsToDomain ls), recs)

/-- decoder.go `newPTRRecordFromRawRR`. -/
def newPTRRecordFromRawRR (fuel : Nat) (records : List LabelRecord)
    (rdrr : RawResourceRecord) : Except GErr (DNSResourceRecord × List LabelRecord) :=
  match nextRawLabelsFrom fuel records rdrr.rDataOffsetInMsg rdrr.rData with
  | .error e => .error (wrapErr e)
  | .ok (ls, recs, _, _) =>
    .ok (.ptrRec (commonFromRawRR rdrr) (rawLabelsToDomain ls), recs)

/-- decoder.go `newNSECRecordFromRawRR`: the next-domain name from the
start of RDATA, then the type bitmap from the rest, sorted ascending. -/
def newNSECRecordFromRawRR (fuel : Nat) (records : List LabelRecord)
    (rdrr : RawResourceRecord) : Except GErr (DNSResourceRecord × List LabelRecord) :=
  match nextRawLabelsFrom fuel records rdrr.rDataOffsetInMsg rdrr.rData with
  | .error e => .error (wrapErr e)
  | .ok (ls, recs, rem, _) =>
    .ok (.nsec (commonFromRawRR rdrr) (rawLabelsToDomain ls)
           (sortNatList (nsecBitmapLoop rem)), recs)

/-- decoder.go `rawRRtoDNSResourceRecord`: dispatch on the record type;
an unhandled type is an error. -/
def rawRRtoDNSResourceRecord (fuel : Nat) (records : List LabelRecord)
    (rdrr : RawResourceRecord) : Except GErr (DNSResourceRecord × List LabelRecord) :=
  if rdrr.typ = TypeA then
    (newARecordFromRawRR rdrr).map (fun r => (r, records))
  else if rdrr.typ = TypeAAAA then
    (newAAAARecordFromRawRR rdrr).map (fun r => (r, records))
  else if rdrr.typ = TypeSRV then
    newSRVRecordFromRawRR fuel records rdrr
  else if rdrr.typ = TypePTR then
    newPTRRecordFromRawRR fuel records rdrr
  else if rdrr.typ = TypeTXT then
    .ok (.txt (commonFromRawRR rdrr) (txtLoop rdrr.rData), records)
  else if rdrr.typ = TypeNSEC then
    newNSECRecordFromRawRR fuel records rdrr
  else if rdrr.typ = TypeOPT then
    .ok (.opt (commonFromRawRR rdrr) (optLoop rdrr.rData), records)
  else .error GErr.msg

/-- decoder.go `Decoder.nextResourceRecord`. -/
def nextResourceRecord (fuel : Nat) (st : DecSt) :
    Except GErr (DNSResourceRecord × DecSt) :=
  match nextRawDNSResourceRecord fuel st with
  | .error e => .error (wrapErr e)
  | .ok (rdrr, st1) =>
    match rawRRtoDNSResourceRecord fuel st1.records rdrr with
    | .error e => .error (wrapErr e)
    | .ok (drr, recs) => .ok (drr, ⟨st1.stream, st1.offset, recs⟩)

/-- part_003 `DNSMessage` (the name-server section is declared but never
decoded). -/
structure DNSMessage where
  Hdr : DNSHeader
  Questions : List DNSQuestion
  Answers : List DNSResourceRecord
  Additional : List DNSResourceRecord
deriving DecidableEq, Repr

/-- The question loop of `DecodeDNSMessage` (each failure is wrapped by
the loop body's `fmt.Errorf`). -/
def decodeQuestions (fuel : Nat) : Nat → DecSt → Except GErr (List DNSQuestion × DecSt)
  | 0, st => .ok ([], st)
  | n + 1, st =>
    match nextRawQuestion fuel st with
    | .error e => .error (wrapErr e)
    | .ok (rq, st1) =>
      match decodeQuestions fuel n st1 with
      | .error e => .error e
      | .ok (qs, st2) => .ok (rq.toQuestion :: qs, st2)

/-- The answer/additional loops of `DecodeDNSMessage` (each failure is
wrapped by the loop body's `fmt.Errorf`). -/
def decodeRecordList (fuel : Nat) : Nat → DecSt → Except GErr (List DNSResourceRecord × DecSt)
  | 0, st => .ok ([], st)
  | n + 1, st =>
    match nextResourceRecord fuel st with
    | .error e => .error (wrapErr e)
    | .ok (drr, st1) =>
      match decodeRecordList fuel n st1 with
      | .error e => .error e
      | .ok (rs, st2) => .ok (drr :: rs, st2)

/-- decoder.go `Decoder.DecodeDNSMessage`: a header-read `io.EOF` is
forwarded unmodified, every other header-read failure is wrapped; then
the declared numbers of questions, answers and additional records are
decoded in order. -/
def decodeDNSMessage (fuel : Nat) (input : List Nat) : Except GErr DNSMessage :=
  match readFull 12 ⟨input, 0, []⟩ with
  | .error e => if e = GErr.eof then .error GErr.eof else .error (wrapErr e)
  | .ok (hb, st1) =>
    let hdr := (rawHeaderFromBytes hb).toDNSHeader
    match decodeQuestions fuel hdr.NumQuestions st1 with
    | .error e => .error e
    | .ok (qs, st2) =>
      match decodeRecordList fuel hdr.NumAnswers st2 with
      | .error e => .error e
      | .ok (ans, st3) =>
        match decodeRecordList fuel hdr.NumAddlRecords st3 with
        | .error e => .error e
        | .ok (adds, _) => .ok ⟨hdr, qs, ans, adds⟩

/-- resourcerecord.go `NSECRecord._writeBitMap`'s `domainTypeDecl`: the
precomputed group / octet / bit numbers of one declared type
(`uint8(typ/256)`, `uint8((typ%256)/8)`, `uint8(typ%8)`). -/
structure DomainTypeDecl where
  group : Nat
  octet : Nat
  bit : Nat
deriving DecidableEq, Repr

/-- The run-collection pattern of `_writeBitMap`: take the leading
elements whose key equals the first element's key, returning the run and
the remainder. -/
def runSplit (key : DomainTypeDecl → Nat) (k : Nat) :
    List DomainTypeDecl → List DomainTypeDecl × List DomainTypeDecl
  | [] => ([], [])
  | x :: xs =>
    if key x = k then
      let (run, rest) := runSplit key k xs
      (x :: run, rest)
    else ([], x :: xs)

/-- `_writeBitMap`'s inner loop: split one group's decls into runs that
share an octet number (compared with the run's first element) and OR
`0x80 >> bit` together for each run. -/
def buildOctetsGo : Nat → List DomainTypeDecl → List (Nat × Nat)
  | 0, _ => []
  | _ + 1, [] => []
  | gas + 1, first :: rest =>
    let (run, remaining) := runSplit DomainTypeDecl.octet first.octet rest
    let value := (first :: run).foldl (fun v d => v ||| (0x80 >>> d.bit)) 0
    (first.octet, value) :: buildOctetsGo gas remaining

/-- `_writeBitMap`'s outer loop: split the decls into runs that share a
group number (compared with the run's first element). -/
def buildGroupsGo : Nat → List DomainTypeDecl → List (Nat × List (Nat × Nat))
  | 0, _ => []
  | _ + 1, [] => []
  | gas + 1, first :: rest =>
    let (run, remaining) := runSplit DomainTypeDecl.group first.group rest
    let inGroup := first :: run
    (first.group, buildOctetsGo (inGroup.length + 1) inGroup) :: buildGroupsGo gas remaining

/-- `_writeBitMap`'s write-out loop for one group: emit `high` octets,
a zero for every position with no recorded octet and the recorded value
where the position matches the next recorded octet number.  (When the
recorded octets run out early — impossible for lists produced by
`buildOctetsGo` — a zero is emitted.) -/
def writeOctets : Nat → Nat → List (Nat × Nat) → List Nat
  | 0, _, _ => []
  | n + 1, i, [] => 0 :: writeOctets n (i + 1) []
  | n + 1, i, (oNum, v) :: rest =>
    if oNum = i then v :: writeOctets n (i + 1) rest
    else 0 :: writeOctets n (i + 1) ((oNum, v) :: rest)

/-- `g.octets[len(g.octets)-1].octetNum`: the last recorded octet number
(0 for an empty list, which `buildGroupsGo` never produces). -/
def lastOctetNum (octets : List (Nat × Nat)) : Nat :=
  octets.foldl (fun _ p => p.1) 0

/-- resourcerecord.go `NSECRecord._writeBitMap`: for every group emit the
group number, the octet count `lastOctetNum + 1` and that many octets. -/
def writeBitMap (types : List Nat) : List Nat :=
  let typeDecls := types.map (fun t =>
    (⟨t / 256 % 256, (t % 256) / 8, t % 8⟩ : DomainTypeDecl))
  ((buildGroupsGo (typeDecls.length + 1) typeDecls).map (fun g =>
    g.1 :: (lastOctetNum g.2 + 1) :: writeOctets (lastOctetNum g.2 + 1) 0 g.2)).flatten

/-- resourcerecord.go `NSECRecord`. -/
structure NSECRecord where
  Common : ResourceRecordCommon
  NextDomainName : List Nat
  NextDomainTypes : List Nat
deriving DecidableEq, Repr

/-- resourcerecord.go `NSECRecord.toRawDNSResourceRecord`: RDATA is the
wire form of the next-domain name followed by the type bitmap (buffer
writes cannot fail). -/
def NSECRecord.toRawDNSResourceRecord (n : NSECRecord) : RawResourceRecord :=
  let rData := rawLabelsToBytes (domainToRawLabels n.NextDomainName) ++
               writeBitMap n.NextDomainTypes
  { newRawResourceRecordFromCommon n.Common with
      rdataLength := rData.length % 65536, rData := rData }

/-! ## Theorems -/

/-- C5: Encoding an NSEC record with next-domain-name "host.example.com"
and declared types {A (1), MX (15), RRSIG (46), NSEC (47), 1234} produces
exactly the RDATA bytes of the RFC 4034 §4.3 example: the wire name
`04 'host' 07 'example' 03 'com' 00`, the first-window bitmap
`00 06 40 01 00 00 00 03`, then `04 1b`, 26 zero octets and `20`. -/
theorem c5_nsec_rfc4034_example_bytes :
    (NSECRecord.toRawDNSResourceRecord
      ⟨⟨[], TypeNSEC, 1, false, 86400⟩,
       [104, 111, 115, 116, 46, 101, 120, 97, 109, 112, 108, 101, 46, 99, 111, 109],
       [1, 15, 46, 47, 1234]⟩).rData =
    [0x04, 104, 111, 115, 116,
     0x07, 101, 120, 97, 109, 112, 108, 101,
     0x03, 99, 111, 109, 0x00,
     0x00, 0x06, 0x40, 0x01, 0x00, 0x00, 0x00, 0x03,
     0x04, 0x1b] ++ List.replicate 26 0 ++ [0x20] := by
  rfl

/-- C6 (failing-input evaluation): encoding a question whose domain is a
single 64-byte segment succeeds with no structural error: the emitted
bytes are the length byte 64 (bit pattern `01000000`), the complete
segment, the terminating zero label and the static block — the library
raises no error for segments longer than 63 bytes. -/
theorem c6_overlong_segment_encodes_without_error :
    DNSQuestion.toBytes ⟨List.replicate 64 97, 1, 1, false⟩ =
      64 :: (List.replicate 64 97 ++ [0, 0, 1, 0, 1]) ∧
    domainToRawLabels (List.replicate 64 97) =
      [⟨64, List.replicate 64 97⟩] := by
  exact ⟨rfl, rfl⟩

/-- C8 (failing-input evaluation): a syntactically well-formed message
whose single answer is a type-A record with declared RDATA length 2
drives `rdrr.rData[0:4]` in `newARecordFromRawRR` out of range: the
decode crashes (Go panic) instead of returning a typed error. -/
theorem c8_short_a_rdata_panics :
    decodeDNSMessage 1
      [0, 0, 0, 0, 0, 0, 0, 1, 0, 0, 0, 0,
       0, 0, 1, 0, 1, 0, 0, 0, 120, 0, 2, 9, 9] =
    .error GErr.panicked := by
  rfl

/-- C10: the empty domain name encodes as a zero-length label for its one
empty segment followed by the zero terminator — two zero bytes, not the
single zero byte of the DNS root name — and the name field of any
resource record built from a common header with an empty domain (such as
a decoded OPT record) is exactly those two bytes. -/
theorem c10_empty_domain_encodes_two_zero_bytes (c : ResourceRecordCommon)
    (h : c.Domain = []) :
    rawLabelsToBytes (domainToRawLabels c.Domain) = [0, 0] ∧
    rawLabelsToBytes (newRawResourceRecordFromCommon c).domainLabels = [0, 0] := by
  constructor
  · rw [h]; rfl
  · show rawLabelsToBytes (domainToRawLabels c.Domain) = [0, 0]
    rw [h]; rfl

/-- Witness for C10 at the common header of an OPT record with empty
domain. -/
theorem c10_witness :
    rawLabelsToBytes (domainToRawLabels
      (⟨[], TypeOPT, 1, false, 0⟩ : ResourceRecordCommon).Domain) = [0, 0] ∧
    rawLabelsToBytes (newRawResourceRecordFromCommon
      (⟨[], TypeOPT, 1, false, 0⟩ : ResourceRecordCommon)).domainLabels = [0, 0] :=
  c10_empty_domain_encodes_two_zero_bytes ⟨[], TypeOPT, 1, false, 0⟩ rfl

/-- C2 (counterexample): the header fields `Reserved`,
`AuthenticatedData` and `CheckingDisabled` are never encoded and always
decode to `false`, so a header with `Reserved = true` (opcode and
response code both 0, well inside 4 bits) does not survive the
encode/decode round trip field-for-field. -/
theorem c2_counterexample :
    (rawHeaderFromBytes (DNSHeader.toBytes
        ⟨0, false, 0, false, false, false, false, true, false, false,
         0, 0, 0, 0, 0⟩)).toDNSHeader ≠
      (⟨0, false, 0, false, false, false, false, true, false, false,
        0, 0, 0, 0, 0⟩ : DNSHeader) := by
  decide

/-- Exhaustive check of flag byte 0: for every 4-bit opcode and flag
combination, `toRaw`'s byte decodes back to each field and equals the
positional sum response·128 + opcode·8 + authoritative·4 + truncated·2 +
recursion-desired·1. -/
theorem flagByte0_fields :
    ∀ op : Nat, op < 16 → ∀ resp au tr rd : Bool,
      (decide ((((((if resp = true then 128 else 0) ||| ((op % 256) <<< 3) % 256 |||
          if au = true then 4 else 0) ||| if tr = true then 2 else 0) |||
          if rd = true then 1 else 0) % 256 % 256) >>> 7 = 1) = resp) ∧
      ((((((if resp = true then 128 else 0) ||| ((op % 256) <<< 3) % 256 |||
          if au = true then 4 else 0) ||| if tr = true then 2 else 0) |||
          if rd = true then 1 else 0) % 256 % 256) >>> 3 &&& 239 = op) ∧
      (decide ((((((if resp = true then 128 else 0) ||| ((op % 256) <<< 3) % 256 |||
          if au = true then 4 else 0) ||| if tr = true then 2 else 0) |||
          if rd = true then 1 else 0) % 256 % 256 &&& 4) >>> 2 = 1) = au) ∧
      (decide ((((((if resp = true then 128 else 0) ||| ((op % 256) <<< 3) % 256 |||
          if au = true then 4 else 0) ||| if tr = true then 2 else 0) |||
          if rd = true then 1 else 0) % 256 % 256 &&& 2) >>> 1 = 1) = tr) ∧
      (decide (((((if resp = true then 128 else 0) ||| ((op % 256) <<< 3) % 256 |||
          if au = true then 4 else 0) ||| if tr = true then 2 else 0) |||
          if rd = true then 1 else 0) % 256 % 256 &&& 1 = 1) = rd) ∧
      ((((((if resp = true then 128 else 0) ||| ((op % 256) <<< 3) % 256 |||
          if au = true then 4 else 0) ||| if tr = true then 2 else 0) |||
          if rd = true then 1 else 0)) =
        (if resp = true then 128 else 0) + op * 8 + (if au = true then 4 else 0) +
        (if tr = true then 2 else 0) + (if rd = true then 1 else 0)) := by decide

/-- Exhaustive check of flag byte 1: for every 4-bit response code and
recursion-available flag, `toRaw`'s byte decodes back to each field and
equals the positional sum recursion-available·128 + response code. -/
theorem flagByte1_fields :
    ∀ rc : Nat, rc < 16 → ∀ ra : Bool,
      (decide ((((if ra = true then 128 else 0) ||| rc % 256 &&& 15) % 256 % 256) >>> 7 = 1) = ra) ∧
      (((if ra = true then 128 else 0) ||| rc % 256 &&& 15) % 256 % 256 &&& 15 = rc) ∧
      (((if ra = true then 128 else 0) ||| rc % 256 &&& 15) =
        (if ra = true then 128 else 0) + rc) := by decide

/-- C2 (amended): for every header whose opcode and response code fit in
4 bits, whose 16-bit fields are in range, and whose never-encoded
`Reserved` / `AuthenticatedData` / `CheckingDisabled` flags are `false`,
decoding the 12-byte encoding yields the header back field-for-field,
and the flag bytes have exactly the claimed layout: byte 0 is
response·128 + opcode·8 + authoritative·4 + truncated·2 +
recursion-desired·1, byte 1 is recursion-available·128 + response code. -/
theorem c2_header_roundtrip (h : DNSHeader)
    (hop : h.OpCode < 16) (hrc : h.ResponseCode < 16)
    (hid : h.ID < 65536) (hnq : h.NumQuestions < 65536)
    (hna : h.NumAnswers < 65536) (hnn : h.NumNameServers < 65536)
    (hnr : h.NumAddlRecords < 65536)
    (hres : h.Reserved = false) (had : h.AuthenticatedData = false)
    (hcd : h.CheckingDisabled = false) :
    h.toBytes.length = 12 ∧
    (rawHeaderFromBytes h.toBytes).toDNSHeader = h ∧
    h.toRaw.flag0 =
      (if h.IsResponse then 128 else 0) + h.OpCode * 8 +
      (if h.Authoritative then 4 else 0) + (if h.Truncated then 2 else 0) +
      (if h.RecursionDesired then 1 else 0) ∧
    h.toRaw.flag1 =
      (if h.RecursionAvailable then 128 else 0) + h.ResponseCode := by
  obtain ⟨ID, resp, op, au, tr, rd, ra, res, ad, cd, rc, nq, na, nn, nad⟩ := h
  dsimp only at hop hrc hid hnq hna hnn hnr hres had hcd ⊢
  subst hres had hcd
  refine ⟨rfl, ?_, ?_, ?_⟩
  · simp only [DNSHeader.toBytes, DNSHeader.toRaw, RawDNSHeader.toBytes, uint16be,
      rawHeaderFromBytes, RawDNSHeader.toDNSHeader, be16, List.cons_append,
      List.nil_append, List.getD_cons_zero, List.getD_cons_succ,
      DNSHeader.mk.injEq]
    exact ⟨by omega,
      (flagByte0_fields op hop resp au tr rd).1,
      (flagByte0_fields op hop resp au tr rd).2.1,
      (flagByte0_fields op hop resp au tr rd).2.2.1,
      (flagByte0_fields op hop resp au tr rd).2.2.2.1,
      (flagByte0_fields op hop resp au tr rd).2.2.2.2.1,
      (flagByte1_fields rc hrc ra).1,
      trivial, trivial, trivial,
      (flagByte1_fields rc hrc ra).2.1,
      by omega, by omega, by omega, by omega⟩
  · exact (flagByte0_fields op hop resp au tr rd).2.2.2.2.2
  · exact (flagByte1_fields rc hrc ra).2.2

/-- Witness for C2 at a concrete in-range header. -/
theorem c2_witness :
    (DNSHeader.toBytes
      ⟨513, true, 5, true, false, true, false, false, false, false,
       3, 1, 2, 3, 4⟩).length = 12 ∧
    (rawHeaderFromBytes (DNSHeader.toBytes
      ⟨513, true, 5, true, false, true, false, false, false, false,
       3, 1, 2, 3, 4⟩)).toDNSHeader =
      (⟨513, true, 5, true, false, true, false, false, false, false,
        3, 1, 2, 3, 4⟩ : DNSHeader) ∧
    (DNSHeader.toRaw
      ⟨513, true, 5, true, false, true, false, false, false, false,
       3, 1, 2, 3, 4⟩).flag0 = 128 + 5 * 8 + 4 + 0 + 1 ∧
    (DNSHeader.toRaw
      ⟨513, true, 5, true, false, true, false, false, false, false,
       3, 1, 2, 3, 4⟩).flag1 = 0 + 3 :=
  c2_header_roundtrip
    ⟨513, true, 5, true, false, true, false, false, false, false, 3, 1, 2, 3, 4⟩
    (by decide) (by decide) (by decide) (by decide) (by decide) (by decide)
    (by decide) rfl rfl rfl

set_option maxRecDepth 4096 in
/-- Exhaustive check: a byte whose top two bits are `01` or `10` is
nonzero, is not a pointer marker, and trips the illegal-length test
`b&0x80 == 0x80 || b&0x40 == 0x40`. -/
theorem illegalLenByteFacts :
    ∀ b0 : Nat, b0 < 256 → b0 >>> 6 = 1 ∨ b0 >>> 6 = 2 →
      ¬b0 = 0 ∧ ¬b0 >>> 6 = 3 ∧ (b0 &&& 128 = 128 ∨ b0 &&& 64 = 64) := by
  decide

/-- C3: whenever the label loop meets a length byte whose top two bits
are `01` or `10`, it fails at once — at any loop iteration (any gas,
cursor, label context) and hence for a label sequence starting with such
a byte — and no interpretation of the byte is attempted. -/
theorem c3_illegal_length_byte_fails (fuel base gas cursor b0 : Nat)
    (records : List LabelRecord) (rest : List Nat)
    (hb : b0 >>> 6 = 1 ∨ b0 >>> 6 = 2) (hlt : b0 < 256) :
    nextRawLabelsGo fuel base (gas + 1) records (b0 :: rest) cursor = .error GErr.msg ∧
    nextRawLabelsFrom fuel records base (b0 :: rest) = .error GErr.msg := by
  obtain ⟨h0, h3, hbad⟩ := illegalLenByteFacts b0 hlt hb
  constructor
  · simp only [nextRawLabelsGo, if_neg h0, if_neg h3, if_pos hbad]
  · show nextRawLabelsGo fuel base ((b0 :: rest).length + 1) records (b0 :: rest) 0 =
      .error GErr.msg
    simp only [List.length_cons, nextRawLabelsGo, if_neg h0, if_neg h3, if_pos hbad]

/-- Witness for C3 at the byte 0x41 (`01000001`). -/
theorem c3_witness :
    nextRawLabelsGo 0 0 (1 + 1) [] [65, 97] 0 = .error GErr.msg ∧
    nextRawLabelsFrom 0 [] 0 [65, 97] = .error GErr.msg :=
  c3_illegal_length_byte_fails 0 0 1 0 65 [] [97] (by decide) (by decide)

/-- C1: at any iteration of the label loop, a length byte with top two
bits `11` makes the decoder read exactly one more byte and stop consuming
the stream (the remainder is returned untouched, exactly 2 bytes past the
cursor): the 14-bit target is `((b0 & 0x3F) << 8) + b1`, a pointer label
record is appended at the current offset, and the returned labels are the
resolution `rawLabelsFromOffset` of the target against the previously
recorded label records — a scan that skips every record with offset below
the target (second conjunct) and, from the first record at or past it,
collects literal labels and recurses through nested pointer records until
a zero-length or pointer record is reached (`scanStep`). -/
theorem c1_compression_pointer (fuel base gas cursor b0 b1 : Nat)
    (records : List LabelRecord) (rest : List Nat)
    (h3 : b0 >>> 6 = 3) (hb1 : b1 < 256) :
    nextRawLabelsGo fuel base (gas + 1) records (b0 :: b1 :: rest) cursor =
      (match rawLabelsFromOffset fuel records (((b0 &&& 63) <<< 8) + b1) with
       | none => .error GErr.panicked
       | some ls =>
         .ok (ls,
              records ++ [⟨(base + cursor) % 65536, 0, [], true,
                           ((b0 &&& 63) <<< 8) + b1⟩],
              rest, cursor + 2)) ∧
    (∀ (recurse : Nat → Option (List RawLabel)) (l : List LabelRecord) (off : Nat),
      scanStep recurse off l =
        scanStep recurse off (l.dropWhile (fun r => decide (r.offset < off)))) := by
  have h0 : ¬b0 = 0 := by
    rw [Nat.shiftRight_eq_div_pow] at h3
    omega
  have htgt : (((b0 &&& 63) <<< 8) + b1) % 65536 = ((b0 &&& 63) <<< 8) + b1 := by
    have hle : b0 &&& 63 ≤ 63 := Nat.and_le_right
    rw [Nat.shiftLeft_eq]
    apply Nat.mod_eq_of_lt
    have : (b0 &&& 63) * 2 ^ 8 ≤ 63 * 2 ^ 8 := Nat.mul_le_mul_right _ hle
    omega
  refine ⟨?_, ?_⟩
  · simp only [nextRawLabelsGo, if_neg h0, if_pos h3, htgt]
  · intro recurse l off
    induction l with
    | nil => rfl
    | cons lr rest ih =>
      by_cases hlt : lr.offset < off
      · rw [List.dropWhile_cons_of_pos (by simpa using hlt)]
        rw [← ih]
        simp only [scanStep, if_pos hlt]
      · rw [List.dropWhile_cons_of_neg (by simpa using hlt)]

/-- Witness for C1: pointer byte 0xC0 with second byte 10 at base offset
20 resolves against two previously recorded label records ("a" at offset
10, terminal at offset 12). -/
theorem c1_witness :
    nextRawLabelsGo 1 20 2 [⟨10, 1, [97], false, 0⟩, ⟨12, 0, [], false, 0⟩]
        [192, 10, 99] 0 =
      .ok ([⟨1, [97]⟩],
           [⟨10, 1, [97], false, 0⟩, ⟨12, 0, [], false, 0⟩, ⟨20, 0, [], true, 10⟩],
           [99], 2) :=
  ((c1_compression_pointer 1 20 1 0 192 10
      [⟨10, 1, [97], false, 0⟩, ⟨12, 0, [], false, 0⟩] [99]
      (by decide) (by decide)).1).trans (by rfl)

/-- Every successful run of the label loop extends the label context by
appending new records, the first of which sits at the loop's starting
offset `(base + cursor) % 65536`. -/
theorem nextRawLabelsGo_appends (fuel base : Nat) :
    ∀ (gas : Nat) (records : List LabelRecord) (stream : List Nat) (cursor : Nat)
      (out : List RawLabel × List LabelRecord × List Nat × Nat),
      nextRawLabelsGo fuel base gas records stream cursor = .ok out →
      ∃ r Δ, out.2.1 = records ++ r :: Δ ∧ r.offset = (base + cursor) % 65536 := by
  intro gas
  induction gas with
  | zero =>
    intro records stream cursor out h
    simp [nextRawLabelsGo] at h
  | succ gas ih =>
    intro records stream cursor out h
    match stream with
    | [] => simp [nextRawLabelsGo] at h
    | b0 :: rest =>
      simp only [nextRawLabelsGo] at h
      by_cases h0 : b0 = 0
      · rw [if_pos h0] at h
        injection h with h'
        subst h'
        exact ⟨_, [], rfl, rfl⟩
      · rw [if_neg h0] at h
        by_cases h3 : b0 >>> 6 = 3
        · rw [if_pos h3] at h
          match rest with
          | [] => simp at h
          | b1 :: rest2 =>
            dsimp only at h
            match hr : rawLabelsFromOffset fuel records ((((b0 &&& 63) <<< 8) + b1) % 65536) with
            | none => rw [hr] at h; simp at h
            | some ls =>
              rw [hr] at h
              injection h with h'
              subst h'
              exact ⟨_, [], rfl, rfl⟩
        · rw [if_neg h3] at h
          by_cases hbad : b0 &&& 128 = 128 ∨ b0 &&& 64 = 64
          · rw [if_pos hbad] at h
            simp at h
          · rw [if_neg hbad] at h
            match rest with
            | [] => simp at h
            | r1 :: rs =>
              dsimp only at h
              match hrec : nextRawLabelsGo fuel base gas
                  (records ++ [⟨(base + cursor) % 65536, b0,
                     padTo b0 ((r1 :: rs).take b0), false, 0⟩])
                  ((r1 :: rs).drop b0)
                  (cursor + 1 + min b0 (r1 :: rs).length) with
              | .error e => rw [hrec] at h; simp at h
              | .ok out1 =>
                rw [hrec] at h
                injection h with h'
                subst h'
                obtain ⟨r, Δ, hEq, hOff⟩ := ih _ _ _ _ hrec
                refine ⟨⟨(base + cursor) % 65536, b0,
                  padTo b0 ((r1 :: rs).take b0), false, 0⟩, r :: Δ, ?_, rfl⟩
                simpa [List.append_assoc] using hEq

/-- C4: whenever decoding an SRV record succeeds, the target name was
parsed with label-context base offset `rDataOffsetInMsg + 6` — the first
label record it appends to the shared context sits at that
message-relative offset (mod 2^16), past the priority, weight and port
fields — and the record carries the three big-endian u16 fields from
RDATA bytes 0-5 and the target domain obtained from the parsed labels. -/
theorem c4_srv_target_base_offset (fuel : Nat) (records : List LabelRecord)
    (rdrr : RawResourceRecord) (rec : DNSResourceRecord) (recs : List LabelRecord)
    (h : newSRVRecordFromRawRR fuel records rdrr = .ok (rec, recs)) :
    (∃ r Δ, recs = records ++ r :: Δ ∧
        r.offset = (rdrr.rDataOffsetInMsg + 6) % 65536) ∧
    (∃ ls, rec = .srv (commonFromRawRR rdrr)
        (be16 (rdrr.rData.getD 0 0) (rdrr.rData.getD 1 0))
        (be16 (rdrr.rData.getD 2 0) (rdrr.rData.getD 3 0))
        (be16 (rdrr.rData.getD 4 0) (rdrr.rData.getD 5 0))
        (rawLabelsToDomain ls)) := by
  unfold newSRVRecordFromRawRR at h
  split at h
  · simp at h
  · match hl : nextRawLabelsFrom fuel records (rdrr.rDataOffsetInMsg + 6) (rdrr.rData.drop 6) with
    | .error e => rw [hl] at h; simp at h
    | .ok (ls, recs1, rem, cur) =>
      rw [hl] at h
      injection h with h2
      obtain ⟨hrec, hrecs⟩ := Prod.mk.injEq .. |>.mp h2
      subst hrecs
      constructor
      · obtain ⟨r, Δ, hEq, hOff⟩ :=
          nextRawLabelsGo_appends fuel (rdrr.rDataOffsetInMsg + 6) _ records _ 0 _ hl
        exact ⟨r, Δ, hEq, by simpa using hOff⟩
      · exact ⟨ls, hrec.symm⟩

/-- Witness for C4: an SRV raw record with RDATA offset 40 and RDATA
priority 1, weight 2, port 3, target "a"; the appended label record sits
at message offset 46 = 40 + 6. -/
theorem c4_witness :
    (∃ r Δ,
      ([⟨46, 1, [97], false, 0⟩, ⟨48, 0, [], false, 0⟩] : List LabelRecord) =
        [] ++ r :: Δ ∧ r.offset = (40 + 6) % 65536) ∧
    (∃ ls, (DNSResourceRecord.srv ⟨[], 33, 1, false, 120⟩ 1 2 3 [97]) =
      .srv (commonFromRawRR ⟨[], 33, 1, 120, 9, 40, [0, 1, 0, 2, 0, 3, 1, 97, 0]⟩)
        (be16 0 1) (be16 0 2) (be16 0 3) (rawLabelsToDomain ls)) :=
  c4_srv_target_base_offset 1 [] ⟨[], 33, 1, 120, 9, 40, [0, 1, 0, 2, 0, 3, 1, 97, 0]⟩
    (.srv ⟨[], 33, 1, false, 120⟩ 1 2 3 [97])
    [⟨46, 1, [97], false, 0⟩, ⟨48, 0, [], false, 0⟩] rfl


/-- Wrapped errors are never the bare `io.EOF`. -/
theorem wrapErr_ne_eof (e : GErr) : wrapErr e ≠ GErr.eof := by
  cases e <;> simp [wrapErr]

/-- The question loop never reports the bare `io.EOF`: every failure in
its body is wrapped. -/
theorem decodeQuestions_error_ne_eof (fuel : Nat) :
    ∀ (n : Nat) (st : DecSt) (e : GErr),
      decodeQuestions fuel n st = .error e → e ≠ GErr.eof := by
  intro n
  induction n with
  | zero =>
    intro st e h
    simp [decodeQuestions] at h
  | succ n ih =>
    intro st e h
    simp only [decodeQuestions] at h
    match hq : nextRawQuestion fuel st with
    | .error e1 =>
      rw [hq] at h
      injection h with h'
      subst h'
      exact wrapErr_ne_eof e1
    | .ok (rq, st1) =>
      rw [hq] at h
      dsimp only at h
      match hr : decodeQuestions fuel n st1 with
      | .error e2 =>
        rw [hr] at h
        injection h with h'
        subst h'
        exact ih st1 _ hr
      | .ok (qs, st2) =>
        rw [hr] at h
        simp at h

/-- The record loops never report the bare `io.EOF`: every failure in
their bodies is wrapped. -/
theorem decodeRecordList_error_ne_eof (fuel : Nat) :
    ∀ (n : Nat) (st : DecSt) (e : GErr),
      decodeRecordList fuel n st = .error e → e ≠ GErr.eof := by
  intro n
  induction n with
  | zero =>
    intro st e h
    simp [decodeRecordList] at h
  | succ n ih =>
    intro st e h
    simp only [decodeRecordList] at h
    match hq : nextResourceRecord fuel st with
    | .error e1 =>
      rw [hq] at h
      injection h with h'
      subst h'
      exact wrapErr_ne_eof e1
    | .ok (drr, st1) =>
      rw [hq] at h
      dsimp only at h
      match hr : decodeRecordList fuel n st1 with
      | .error e2 =>
        rw [hr] at h
        injection h with h'
        subst h'
        exact ih st1 _ hr
      | .ok (rs, st2) =>
        rw [hr] at h
        simp at h

/-- C7 (amended): `DecodeDNSMessage` reports the bare `io.EOF`,
propagated unmodified, exactly when the input has no bytes at all where
the header is expected.  A partial header is a wrapped decode failure
(`io.ErrUnexpectedEOF` through `fmt.Errorf`), and every end-of-stream
after the header was read is likewise reported as a wrapped decode
failure distinct from the bare `io.EOF`. -/
theorem c7_clean_eof_iff_empty (fuel : Nat) (input : List Nat) :
    decodeDNSMessage fuel input = .error GErr.eof ↔ input = [] := by
  constructor
  · intro h
    by_contra hne
    unfold decodeDNSMessage at h
    by_cases hlen : 12 ≤ input.length
    · have hrf : readFull 12 ⟨input, 0, []⟩ =
          .ok (input.take 12, ⟨input.drop 12, 0 + 12, []⟩) := by
        simp [readFull, hlen]
      rw [hrf] at h
      dsimp only at h
      match hq : decodeQuestions fuel
          ((rawHeaderFromBytes (input.take 12)).toDNSHeader).NumQuestions
          ⟨input.drop 12, 0 + 12, []⟩ with
      | .error e1 =>
        rw [hq] at h
        injection h with h'
        exact decodeQuestions_error_ne_eof fuel _ _ _ hq h'
      | .ok (qs, st2) =>
        rw [hq] at h
        dsimp only at h
        match ha : decodeRecordList fuel
            ((rawHeaderFromBytes (input.take 12)).toDNSHeader).NumAnswers st2 with
        | .error e2 =>
          rw [ha] at h
          injection h with h'
          exact decodeRecordList_error_ne_eof fuel _ _ _ ha h'
        | .ok (ans, st3) =>
          rw [ha] at h
          dsimp only at h
          match hd : decodeRecordList fuel
              ((rawHeaderFromBytes (input.take 12)).toDNSHeader).NumAddlRecords st3 with
          | .error e3 =>
            rw [hd] at h
            injection h with h'
            exact decodeRecordList_error_ne_eof fuel _ _ _ hd h'
          | .ok (adds, st4) =>
            rw [hd] at h
            simp at h
    · have hrf : readFull 12 ⟨input, 0, []⟩ = .error GErr.unexpectedEof := by
        unfold readFull
        rw [if_neg (by simpa using hlen), if_neg (by simpa [List.isEmpty_iff] using hne)]
      rw [hrf] at h
      simp [wrapErr] at h
  · intro h
    subst h
    rfl


/-- A successful question loop returns exactly the requested number of
questions. -/
theorem decodeQuestions_length (fuel : Nat) :
    ∀ (n : Nat) (st : DecSt) (qs : List DNSQuestion) (st1 : DecSt),
      decodeQuestions fuel n st = .ok (qs, st1) → qs.length = n := by
  intro n
  induction n with
  | zero =>
    intro st qs st1 h
    simp only [decodeQuestions] at h
    injection h with h'
    obtain ⟨h1, h2⟩ := Prod.mk.injEq .. |>.mp h'
    simp [← h1]
  | succ n ih =>
    intro st qs st1 h
    simp only [decodeQuestions] at h
    match hq : nextRawQuestion fuel st with
    | .error e1 => rw [hq] at h; simp at h
    | .ok (rq, stq) =>
      rw [hq] at h
      dsimp only at h
      match hr : decodeQuestions fuel n stq with
      | .error e2 => rw [hr] at h; simp at h
      | .ok (qs2, st2) =>
        rw [hr] at h
        injection h with h'
        obtain ⟨h1, h2⟩ := Prod.mk.injEq .. |>.mp h'
        rw [← h1, List.length_cons, ih stq qs2 st2 hr]

/-- A successful record loop returns exactly the requested number of
records. -/
theorem decodeRecordList_length (fuel : Nat) :
    ∀ (n : Nat) (st : DecSt) (rs : List DNSResourceRecord) (st1 : DecSt),
      decodeRecordList fuel n st = .ok (rs, st1) → rs.length = n := by
  intro n
  induction n with
  | zero =>
    intro st rs st1 h
    simp only [decodeRecordList] at h
    injection h with h'
    obtain ⟨h1, h2⟩ := Prod.mk.injEq .. |>.mp h'
    simp [← h1]
  | succ n ih =>
    intro st rs st1 h
    simp only [decodeRecordList] at h
    match hq : nextResourceRecord fuel st with
    | .error e1 => rw [hq] at h; simp at h
    | .ok (drr, stq) =>
      rw [hq] at h
      dsimp only at h
      match hr : decodeRecordList fuel n stq with
      | .error e2 => rw [hr] at h; simp at h
      | .ok (rs2, st2) =>
        rw [hr] at h
        injection h with h'
        obtain ⟨h1, h2⟩ := Prod.mk.injEq .. |>.mp h'
        rw [← h1, List.length_cons, ih stq rs2 st2 hr]

/-- C9: whenever `DecodeDNSMessage` succeeds, the numbers of decoded
questions, answers and additional records equal the header's declared
`NumQuestions`, `NumAnswers` and `NumAddlRecords`; since each loop either
delivers its full count or fails the whole decode, a stream exhausted
mid-way can never yield a successful message with fewer entries. -/
theorem c9_declared_counts_match (fuel : Nat) (input : List Nat) (m : DNSMessage)
    (h : decodeDNSMessage fuel input = .ok m) :
    m.Questions.length = m.Hdr.NumQuestions ∧
    m.Answers.length = m.Hdr.NumAnswers ∧
    m.Additional.length = m.Hdr.NumAddlRecords := by
  unfold decodeDNSMessage at h
  match hrf : readFull 12 ⟨input, 0, []⟩ with
  | .error e =>
    rw [hrf] at h
    dsimp only at h
    split at h <;> simp at h
  | .ok (hb, st1) =>
    rw [hrf] at h
    dsimp only at h
    match hq : decodeQuestions fuel ((rawHeaderFromBytes hb).toDNSHeader).NumQuestions st1 with
    | .error e1 => rw [hq] at h; simp at h
    | .ok (qs, st2) =>
      rw [hq] at h
      dsimp only at h
      match ha : decodeRecordList fuel ((rawHeaderFromBytes hb).toDNSHeader).NumAnswers st2 with
      | .error e2 => rw [ha] at h; simp at h
      | .ok (ans, st3) =>
        rw [ha] at h
        dsimp only at h
        match hd : decodeRecordList fuel ((rawHeaderFromBytes hb).toDNSHeader).NumAddlRecords st3 with
        | .error e3 => rw [hd] at h; simp at h
        | .ok (adds, st4) =>
          rw [hd] at h
          injection h with h'
          subst h'
          exact ⟨decodeQuestions_length fuel _ _ _ _ hq,
                 decodeRecordList_length fuel _ _ _ _ ha,
                 decodeRecordList_length fuel _ _ _ _ hd⟩

/-- C7 (counterexample): on the 1-byte input `[0]` the end of the stream
is reached while reading the 12-byte header, yet the decoder reports a
wrapped decode failure, not the bare `io.EOF` the claim requires for
every end-of-stream during the header read. -/
theorem c7_counterexample :
    decodeDNSMessage 1 [0] = .error GErr.msg ∧
    GErr.msg ≠ GErr.eof ∧ ([0] : List Nat).length < 12 :=
  ⟨rfl, by decide, by decide⟩

/-- Witness for C9 at an all-zero header (all counts 0). -/
theorem c9_witness :
    (DNSMessage.mk
      ⟨0, false, 0, false, false, false, false, false, false, false, 0, 0, 0, 0, 0⟩
      [] [] []).Questions.length =
      (DNSMessage.mk
        ⟨0, false, 0, false, false, false, false, false, false, false, 0, 0, 0, 0, 0⟩
        [] [] []).Hdr.NumQuestions ∧
    (DNSMessage.mk
      ⟨0, false, 0, false, false, false, false, false, false, false, 0, 0, 0, 0, 0⟩
      [] [] []).Answers.length =
      (DNSMessage.mk
        ⟨0, false, 0, false, false, false, false, false, false, false, 0, 0, 0, 0, 0⟩
        [] [] []).Hdr.NumAnswers ∧
    (DNSMessage.mk
      ⟨0, false, 0, false, false, false, false, false, false, false, 0, 0, 0, 0, 0⟩
      [] [] []).Additional.length =
      (DNSMessage.mk
        ⟨0, false, 0, false, false, false, false, false, false, false, 0, 0, 0, 0, 0⟩
        [] [] []).Hdr.NumAddlRecords :=
  c9_declared_counts_match 1 (List.replicate 12 0) _ rfl
